import Mathlib

/-!
Verification model of the agno-reclamAI repository.

The development shallowly embeds the retrieval subsystem (`rag_system.py`),
the knowledge formatter (`agno_knowledge.py`), the spam/length guardrail
(`guardrails/spam_length.py`) and the conversation-history reader
(`base_historico.py`).

Conventions of the embedding:
* Embedding vectors are lists of integers; the embedding model
  `self.modelo.encode` is an abstract function parameter, so all theorems
  quantify over it.
* FAISS `IndexFlatL2` is modelled as a dimension together with the list of
  stored vectors in insertion order; `search` computes squared-L2 distances,
  sorts them stably in ascending order and, as FAISS does when `k` exceeds
  `ntotal`, pads the result with label `-1` and an infinite distance
  (`⊤ : WithTop Int`, standing for `FLT_MAX`).  The Python wrapper's
  assertions (`d == self.d`, `k > 0`) surface as `assertionError`.
* Python exceptions are values of `PyErr`; fallible operations return
  `Except PyErr _`.  Python list indexing (including negative indices) is
  `pyGet`.
* The file system is a map from path to file content; `faiss.write_index`
  and `json.dump` are modelled as lossless serialisation of the respective
  values, which is what they are for `IndexFlatL2` and lists of strings.
-/

namespace ReclamAI

/-- An embedding vector. -/
abbrev Vec := List Int

/-- Squared L2 distance between two vectors, the metric of `IndexFlatL2`. -/
def l2dist (q v : Vec) : Int :=
  ((q.zip v).map (fun p => (p.1 - p.2) ^ 2)).sum

/-- A FAISS `IndexFlatL2`: its dimension and the stored vectors in
insertion order (ids are positions). -/
structure FaissIndex where
  d : Nat
  vecs : List Vec
deriving DecidableEq

/-- Python exceptions that the modelled code can raise. -/
inductive PyErr where
  /-- `assert` failure inside the FAISS Python wrapper (`d == self.d`, `k > 0`). -/
  | assertionError
  /-- Python `IndexError` from an out-of-range list subscript. -/
  | indexError
  /-- `faiss.read_index` failure on a file that is not a FAISS index. -/
  | readIndexError
  /-- `json.load` failure on a file that is not JSON. -/
  | jsonDecodeError
deriving DecidableEq

instance {ε α : Type} [DecidableEq ε] [DecidableEq α] : DecidableEq (Except ε α) := by
  intro a b
  cases a with
  | error e =>
    cases b with
    | error f => exact decidable_of_iff (e = f) (by simp)
    | ok y => exact .isFalse (by simp)
  | ok x =>
    cases b with
    | error f => exact .isFalse (by simp)
    | ok y => exact decidable_of_iff (x = y) (by simp)

/-- One search result entry as FAISS returns it: a distance (`⊤` for the
`FLT_MAX` padding) and a label (`-1` for padding). -/
abbrev SearchEntry := WithTop Int × Int

/-- `IndexFlatL2.search` for a single query: score every stored vector,
sort stably by ascending distance, keep the first `k`, and pad with
`(FLT_MAX, -1)` entries up to length `k` when fewer than `k` vectors are
stored. -/
def knnSearch (vecs : List Vec) (q : Vec) (k : Nat) : List SearchEntry :=
  let scored : List SearchEntry :=
    vecs.enum.map (fun p => (((l2dist q p.2 : Int) : WithTop Int), (p.1 : Int)))
  let sorted := List.insertionSort (fun a b => a.1 ≤ b.1) scored
  let top := sorted.take k
  top ++ List.replicate (k - top.length) ((⊤ : WithTop Int), (-1 : Int))

/-- Python list subscript `l[i]`: negative indices count from the end;
out-of-range access is `none` (an `IndexError`). -/
def pyGet (l : List String) (i : Int) : Option String :=
  let j : Int := if i < 0 then (l.length : Int) + i else i
  if 0 ≤ j then l[j.toNat]? else none

/-- A Python list comprehension `[f i for i in l]` where each element
lookup may raise: the first failure aborts the whole comprehension. -/
def pyListMap (f : Int → Option String) : List Int → Option (List String)
  | [] => some []
  | i :: rest =>
    match f i with
    | none => none
    | some s =>
      match pyListMap f rest with
      | none => none
      | some l => some (s :: l)

/-- The mutable state of a `SistemaRAG` object: `self.indice` and
`self.chunks` (the `self.embeddings` field is never read by the modelled
operations). -/
structure RagState where
  indice : Option FaissIndex
  chunks : List String
deriving DecidableEq

/-- `SistemaRAG.buscar_contexto` (src/rag_system.py lines 69-91): return
`[]` when no index is built; otherwise embed the query, run the FAISS
search with `top_k`, and map the returned labels through Python list
indexing on `self.chunks`. -/
def buscar_contexto (st : RagState) (encode : String → Vec) (consulta : String)
    (top_k : Int) : Except PyErr (List String) :=
  match st.indice with
  | none => .ok []
  | some idx =>
    let consulta_embedding := encode consulta
    if consulta_embedding.length ≠ idx.d then .error .assertionError
    else if top_k ≤ 0 then .error .assertionError
    else
      let res := knnSearch idx.vecs consulta_embedding top_k.toNat
      match pyListMap (pyGet st.chunks) (res.map (fun p => p.2)) with
      | some chunks_relevantes => .ok chunks_relevantes
      | none => .error .indexError

/-- Contents a file of this program can hold. -/
inductive FileContent where
  /-- A serialised FAISS index, as written by `faiss.write_index`. -/
  | faissData (idx : FaissIndex)
  /-- A JSON list of strings, as written by `json.dump`. -/
  | jsonData (chunks : List String)
deriving DecidableEq

/-- The file system: a map from path to file content. -/
def FS : Type := String → Option FileContent

/-- Writing a file in place. -/
def fsWrite (fs : FS) (p : String) (c : FileContent) : FS :=
  fun q => if q = p then some c else fs q

/-- A file-system operation performed by the persistence code. -/
inductive FsOp where
  | write (path : String) (content : FileContent)
  | rename (src dst : String)
deriving DecidableEq

/-- Effect of one file-system operation. -/
def applyOp (fs : FS) : FsOp → FS
  | .write p c => fsWrite fs p c
  | .rename src dst => fun q => if q = dst then fs src else if q = src then none else fs q

/-- The sequence of file-system operations performed by
`SistemaRAG.salvar_indice` (src/rag_system.py lines 93-106): nothing when
no index is built, otherwise `faiss.write_index` to `caminho_indice`
followed by `json.dump` of the chunks to `caminho_chunks`, both directly
at the target paths. -/
def salvar_ops (st : RagState) (caminho_indice caminho_chunks : String) : List FsOp :=
  match st.indice with
  | none => []
  | some idx =>
    [.write caminho_indice (.faissData idx), .write caminho_chunks (.jsonData st.chunks)]

/-- `SistemaRAG.salvar_indice` as a file-system transformer. -/
def salvar_indice (st : RagState) (caminho_indice caminho_chunks : String) (fs : FS) : FS :=
  (salvar_ops st caminho_indice caminho_chunks).foldl applyOp fs

/-- `SistemaRAG.carregar_indice` (src/rag_system.py lines 108-123): when
both files exist, read the index with `faiss.read_index` and the chunks
with `json.load` and overwrite `self.indice` / `self.chunks`; when either
file is missing, print a message and leave the state unchanged. -/
def carregar_indice (st : RagState) (caminho_indice caminho_chunks : String) (fs : FS) :
    Except PyErr RagState :=
  match fs caminho_indice, fs caminho_chunks with
  | some ci, some cc =>
    match ci with
    | .faissData idx =>
      match cc with
      | .jsonData cs => .ok { indice := some idx, chunks := cs }
      | .faissData _ => .error .jsonDecodeError
    | .jsonData _ => .error .readIndexError
  | some _, none => .ok st
  | none, some _ => .ok st
  | none, none => .ok st

/-- Whether a file-system operation writes directly to path `p`. -/
def isDirectWriteTo (op : FsOp) (p : String) : Bool :=
  match op with
  | .write q _ => q = p
  | .rename _ _ => false

/-- Whether a file-system operation renames some file into path `p`. -/
def isRenameInto (op : FsOp) (p : String) : Bool :=
  match op with
  | .write _ _ => false
  | .rename _ dst => dst = p

/-- Modelled from the spec: the atomic-save protocol §4.4 prescribes for
`save` — content is first written to temporary files (never directly to
the two target paths) and then renamed into place, one rename per target
path.  Used only to compare `salvar_ops` against the spec's words. -/
def specAtomicSaveProtocol (ops : List FsOp) (caminho_indice caminho_chunks : String) : Prop :=
  (∀ op ∈ ops, isDirectWriteTo op caminho_indice = false ∧
      isDirectWriteTo op caminho_chunks = false) ∧
  (∃ op ∈ ops, isRenameInto op caminho_indice = true) ∧
  (∃ op ∈ ops, isRenameInto op caminho_chunks = true)

instance (ops : List FsOp) (p1 p2 : String) :
    Decidable (specAtomicSaveProtocol ops p1 p2) := by
  unfold specAtomicSaveProtocol
  infer_instance

/-! ### Chunking (`SistemaRAG.carregar_documentos`, src/rag_system.py lines 43-48)

The file content is split on the two-character separator `"\n\n"`
(Python `conteudo.split('\n\n')`), each piece is stripped of surrounding
whitespace, and empty pieces are dropped.  Text is modelled as `List Char`
so that the Python splitting semantics can be stated and proved by
induction. -/

/-- Python `s.split('\n\n')`, accumulator style: scan left to right, cut
at each non-overlapping leftmost occurrence of two consecutive newlines. -/
def splitPar : List Char → List Char → List (List Char)
  | [], acc => [acc.reverse]
  | [c], acc => [(c :: acc).reverse]
  | c1 :: c2 :: rest, acc =>
    if c1 = '\n' ∧ c2 = '\n' then acc.reverse :: splitPar rest []
    else splitPar (c2 :: rest) (c1 :: acc)

/-- Whether the text contains the separator `"\n\n"`. -/
def hasPar : List Char → Bool
  | c1 :: c2 :: rest => (c1 = '\n' && c2 = '\n') || hasPar (c2 :: rest)
  | _ => false

/-- The whitespace characters removed by Python `str.strip()` (ASCII part). -/
def isPySpace (c : Char) : Bool :=
  c = ' ' || c = '\t' || c = '\n' || c = '\r' || c = '\x0b' || c = '\x0c'

/-- Python `s.strip()`. -/
def pyStrip (s : List Char) : List Char :=
  ((s.dropWhile isPySpace).reverse.dropWhile isPySpace).reverse

/-- The chunk list computed by `SistemaRAG.carregar_documentos` from the
file content: `[chunk.strip() for chunk in conteudo.split('\n\n') if chunk.strip()]`. -/
def carregar_documentos_chunks (conteudo : List Char) : List (List Char) :=
  ((splitPar conteudo []).map pyStrip).filter (fun c => !c.isEmpty)

/-! ### Context formatting (`SistemaKnowledgeAgnos.obter_contexto_formatado`,
src/agno_knowledge.py lines 121-140)

A search result is represented by its `content` string. -/

/-- The loop `for i, resultado in enumerate(resultados, 1):
`contexto += f"⟨i⟩. ⟨resultado.content⟩\n\n"`. -/
def fmtResultados (i : Nat) : List String → String
  | [] => ""
  | content :: rest => toString i ++ ". " ++ content ++ "\n\n" ++ fmtResultados (i + 1) rest

/-- `SistemaKnowledgeAgnos.obter_contexto_formatado` applied to the
results of `buscar_conhecimento`: empty string on no results, otherwise a
header followed by the numbered results. -/
def obter_contexto_formatado (resultados : List String) : String :=
  if resultados = [] then ""
  else "**Conhecimento relevante:**\n" ++ fmtResultados 1 resultados

/-! ### Spam/length guardrail (`SpamAndLengthGuardrail._check`,
src/guardrails/spam_length.py lines 17-23) -/

/-- The `run_input.input_content` value: a Python string or any non-string
value. -/
inductive RunInputContent where
  | str (s : String)
  | nonStr
deriving DecidableEq

/-- `SpamAndLengthGuardrail.MAX_INPUT_CHARS`. -/
def MAX_INPUT_CHARS : Nat := 1000

/-- `SpamAndLengthGuardrail._check`: coerce non-string input to `""`,
then raise `InputCheckError` (modelled as `some message`) when the content
is truthy and longer than `MAX_INPUT_CHARS`; otherwise return `None`
without touching the input. -/
def spamLengthCheck (input_content : RunInputContent) : Option String :=
  let content := match input_content with
    | .str s => s
    | .nonStr => ""
  if content ≠ "" ∧ content.length > MAX_INPUT_CHARS then
    some "Mensagem longa demais"
  else none

/-! ### Conversation history (`BaseHistorico.obter_historico`,
src/base_historico.py lines 103-135)

The `mensagens` table is modelled as a list of rows in insertion order.
`CURRENT_TIMESTAMP` strings compare chronologically, so timestamps are
modelled as naturals.  `ORDER BY timestamp DESC LIMIT ?` is a stable
descending sort followed by a prefix, and the code finally reverses the
rows into chronological order. -/

/-- A row of the `mensagens` table. -/
structure Mensagem where
  session_id : String
  agente_nome : String
  tipo : String
  conteudo : String
  timestamp : Nat
deriving DecidableEq

/-- The `WHERE session_id = ? AND agente_nome = ?` predicate. -/
def matchesQuery (session_id agente_nome : String) (m : Mensagem) : Bool :=
  m.session_id = session_id && m.agente_nome = agente_nome

/-- `BaseHistorico.obter_historico`: filter the table by session and
agent, order by descending timestamp, keep the first `limite` rows, and
return them reversed into ascending order. -/
def obter_historico (db : List Mensagem) (session_id agente_nome : String)
    (limite : Nat) : List Mensagem :=
  let filtered := db.filter (matchesQuery session_id agente_nome)
  let sorted := List.insertionSort (fun a b => b.timestamp ≤ a.timestamp) filtered
  (sorted.take limite).reverse

/-! ### Helper lemmas -/

instance : IsTotal SearchEntry (fun a b => a.1 ≤ b.1) :=
  ⟨fun a b => le_total a.1 b.1⟩

instance : IsTrans SearchEntry (fun a b => a.1 ≤ b.1) :=
  ⟨fun _ _ _ h1 h2 => le_trans h1 h2⟩

instance : IsTotal Mensagem (fun a b => b.timestamp ≤ a.timestamp) :=
  ⟨fun a b => le_total b.timestamp a.timestamp⟩

instance : IsTrans Mensagem (fun a b => b.timestamp ≤ a.timestamp) :=
  ⟨fun _ _ _ h1 h2 => le_trans h2 h1⟩

theorem knnSearch_length (vecs : List Vec) (q : Vec) (k : Nat) :
    (knnSearch vecs q k).length = k := by
  unfold knnSearch
  simp only [List.length_append, List.length_replicate, List.length_take]
  omega

theorem knnSearch_pairwise (vecs : List Vec) (q : Vec) (k : Nat) :
    (knnSearch vecs q k).Pairwise (fun a b => a.1 ≤ b.1) := by
  unfold knnSearch
  rw [List.pairwise_append]
  refine ⟨?_, ?_, ?_⟩
  · exact List.Pairwise.sublist (List.take_sublist _ _) (List.sorted_insertionSort _ _)
  · exact (List.pairwise_replicate).mpr (Or.inr le_rfl)
  · intro a _ b hb
    rw [List.eq_of_mem_replicate hb]
    exact le_top

theorem knnSearch_mem (vecs : List Vec) (q : Vec) (k : Nat) (p : SearchEntry)
    (hp : p ∈ knnSearch vecs q k) :
    (0 ≤ p.2 ∧ p.2 < vecs.length) ∨ p.2 = -1 := by
  unfold knnSearch at hp
  rcases List.mem_append.mp hp with h | h
  · left
    have hsorted : p ∈ List.insertionSort (fun a b => a.1 ≤ b.1)
        (vecs.enum.map (fun p => (((l2dist q p.2 : Int) : WithTop Int), (p.1 : Int)))) :=
      (List.take_sublist _ _).subset h
    have hscored := (List.perm_insertionSort _ _).subset hsorted
    obtain ⟨e, hmem, hpe⟩ := List.mem_map.mp hscored
    have hlt : e.1 < vecs.length := List.fst_lt_of_mem_enum hmem
    have h2 : p.2 = (e.1 : Int) := by rw [← hpe]
    rw [h2]
    exact ⟨Int.natCast_nonneg e.1, by exact_mod_cast hlt⟩
  · right
    rw [List.eq_of_mem_replicate h]

theorem pyGet_isSome (l : List String) (i : Int)
    (h : (0 ≤ i ∧ i < l.length) ∨ (i = -1 ∧ l ≠ [])) : (pyGet l i).isSome := by
  unfold pyGet
  rcases h with ⟨h0, hlt⟩ | ⟨rfl, hne⟩
  · rw [show (if i < 0 then (l.length : Int) + i else i) = i from if_neg (by omega)]
    rw [if_pos h0, List.getElem?_eq_getElem (show i.toNat < l.length by omega)]
    rfl
  · have hlen : 0 < l.length := List.length_pos.mpr hne
    rw [show (if (-1 : Int) < 0 then (l.length : Int) + (-1) else (-1)) = (l.length : Int) + (-1)
      from if_pos (by omega)]
    rw [if_pos (by omega),
      List.getElem?_eq_getElem (show ((l.length : Int) + (-1)).toNat < l.length by omega)]
    rfl

theorem pyListMap_isSome (f : Int → Option String) (l : List Int)
    (h : ∀ i ∈ l, (f i).isSome) :
    ∃ l2, pyListMap f l = some l2 ∧ l2.length = l.length := by
  induction l with
  | nil => exact ⟨[], rfl, rfl⟩
  | cons a rest ih =>
    obtain ⟨s, hs⟩ := Option.isSome_iff_exists.mp (h a (List.mem_cons_self a rest))
    obtain ⟨l2, hl2, hlen⟩ := ih (fun i hi => h i (List.mem_cons_of_mem a hi))
    exact ⟨s :: l2, by simp [pyListMap, hs, hl2], by simp [hlen]⟩

theorem splitPar_no_sep (s acc : List Char) (h : hasPar s = false) :
    splitPar s acc = [acc.reverse ++ s] := by
  induction s, acc using splitPar.induct with
  | case1 acc => simp [splitPar]
  | case2 c acc => simp [splitPar]
  | case3 c1 c2 rest acc hif ih =>
    rw [hasPar] at h
    simp [hif.1, hif.2] at h
  | case4 c1 c2 rest acc hif ih =>
    rw [hasPar] at h
    simp only [Bool.or_eq_false_iff] at h
    rw [splitPar, if_neg hif, ih h.2]
    simp

theorem fmtResultados_length_ge (rs : List String) (i : Nat) :
    (rs.map String.length).sum ≤ (fmtResultados i rs).length := by
  induction rs generalizing i with
  | nil => simp [fmtResultados]
  | cons c rest ih =>
    simp only [fmtResultados, List.map_cons, List.sum_cons, String.length_append]
    have := ih (i + 1)
    omega

theorem buscar_contexto_some (oi : Option FaissIndex) (ch : List String) (idx : FaissIndex)
    (encode : String → Vec) (consulta : String) (top_k : Int) (h : oi = some idx) :
    buscar_contexto ⟨oi, ch⟩ encode consulta top_k =
      if (encode consulta).length ≠ idx.d then .error .assertionError
      else if top_k ≤ 0 then .error .assertionError
      else match pyListMap (pyGet ch)
          ((knnSearch idx.vecs (encode consulta) top_k.toNat).map (fun p => p.2)) with
        | some cs => .ok cs
        | none => .error .indexError := by
  subst h
  rfl

/-! ### Claim theorems -/

/-- C1 (corrected): on states where the index is present, the chunk list
is at least as long as the vector list and nonempty, and the query
embedding has the index's dimension, `buscar_contexto` with a positive
`top_k` succeeds with a list of exactly `top_k` chunks (FAISS pads with
label `-1`, which Python indexing turns into the last chunk, when the
index holds fewer than `top_k` entries), and the distances of the
underlying FAISS search are non-decreasing. -/
theorem buscar_contexto_consistent_ok (st : RagState) (encode : String → Vec)
    (consulta : String) (top_k : Int) (idx : FaissIndex)
    (hidx : st.indice = some idx)
    (hchunks : idx.vecs.length ≤ st.chunks.length)
    (hne : st.chunks ≠ [])
    (hd : (encode consulta).length = idx.d)
    (hk : 0 < top_k) :
    ∃ l, buscar_contexto st encode consulta top_k = .ok l ∧
      l.length = top_k.toNat ∧
      List.Sorted (fun a b => a ≤ b)
        ((knnSearch idx.vecs (encode consulta) top_k.toNat).map Prod.fst) := by
  obtain ⟨oi, ch⟩ := st
  replace hidx : oi = some idx := hidx
  subst hidx
  replace hchunks : idx.vecs.length ≤ ch.length := hchunks
  replace hne : ch ≠ [] := hne
  have hvalid : ∀ i ∈ (knnSearch idx.vecs (encode consulta) top_k.toNat).map
      (fun p => p.2), (pyGet ch i).isSome := by
    intro i hi
    obtain ⟨p, hp, hpi⟩ := List.mem_map.mp hi
    rcases knnSearch_mem _ _ _ p hp with ⟨h0, hlt⟩ | hneg
    · exact pyGet_isSome _ _ (Or.inl ⟨hpi ▸ h0, by rw [← hpi]; omega⟩)
    · exact pyGet_isSome _ _ (Or.inr ⟨hpi ▸ hneg, hne⟩)
  obtain ⟨l, hl, hlen⟩ := pyListMap_isSome (pyGet ch) _ hvalid
  refine ⟨l, ?_, ?_, ?_⟩
  · rw [buscar_contexto_some _ _ idx _ _ _ rfl, if_neg (by omega), if_neg (by omega), hl]
  · rw [hlen, List.length_map, knnSearch_length]
  · exact List.pairwise_map.mpr (knnSearch_pairwise _ _ _)

/-- Witness for C1: a one-vector index with one chunk, queried with
`top_k = 2` (more than the index holds). -/
theorem buscar_contexto_consistent_ok_witness :
    ∃ l, buscar_contexto ⟨some ⟨1, [[2]]⟩, ["a"]⟩ (fun _ => [0]) "q" 2 = .ok l ∧
      l.length = (2 : Int).toNat ∧
      List.Sorted (fun a b => a ≤ b)
        ((knnSearch [[2]] ((fun _ : String => [(0 : Int)]) "q") (2 : Int).toNat).map Prod.fst) :=
  buscar_contexto_consistent_ok ⟨some ⟨1, [[2]]⟩, ["a"]⟩ (fun _ => [0]) "q" 2 ⟨1, [[2]]⟩
    rfl (by decide) (by decide) (by decide) (by decide)

/-- Counterexample for C1 as stated: on the index state whose FAISS index
holds one vector while the chunk list is empty, a search with positive
`top_k = 1` raises `IndexError` instead of returning a sequence. -/
theorem buscar_contexto_inconsistent_raises :
    buscar_contexto ⟨some ⟨1, [[0]]⟩, []⟩ (fun _ => [0]) "q" 1 = .error .indexError := by
  decide

/-- C2 (corrected): when the index is present and the two paths are
distinct, saving and then loading (into any receiver) restores the exact
original state, hence identical search results for every embedding
function, query and `top_k`, and an identical chunk list. -/
theorem salvar_carregar_roundtrip (st legacy : RagState) (caminho_indice caminho_chunks : String)
    (fs : FS) (idx : FaissIndex) (hidx : st.indice = some idx)
    (hne : caminho_indice ≠ caminho_chunks) :
    ∃ loaded, carregar_indice legacy caminho_indice caminho_chunks
        (salvar_indice st caminho_indice caminho_chunks fs) = .ok loaded ∧
      loaded.chunks = st.chunks ∧
      ∀ encode consulta top_k,
        buscar_contexto loaded encode consulta top_k =
          buscar_contexto st encode consulta top_k := by
  obtain ⟨oi, ch⟩ := st
  simp only [RagState.mk.injEq] at hidx ⊢
  subst hidx
  refine ⟨⟨some idx, ch⟩, ?_, rfl, fun _ _ _ => rfl⟩
  unfold salvar_indice salvar_ops carregar_indice
  simp [applyOp, fsWrite, hne]

/-- Witness for C2: saving a concrete one-vector index and loading it into
a fresh state. -/
theorem salvar_carregar_roundtrip_witness :
    ∃ loaded, carregar_indice ⟨none, []⟩ "indice_rag.faiss" "chunks_rag.json"
        (salvar_indice ⟨some ⟨1, [[2]]⟩, ["a"]⟩ "indice_rag.faiss" "chunks_rag.json"
          (fun _ => none)) = .ok loaded ∧
      loaded.chunks = (RagState.mk (some ⟨1, [[2]]⟩) ["a"]).chunks ∧
      ∀ encode consulta top_k,
        buscar_contexto loaded encode consulta top_k =
          buscar_contexto ⟨some ⟨1, [[2]]⟩, ["a"]⟩ encode consulta top_k :=
  salvar_carregar_roundtrip ⟨some ⟨1, [[2]]⟩, ["a"]⟩ ⟨none, []⟩ "indice_rag.faiss"
    "chunks_rag.json" (fun _ => none) ⟨1, [[2]]⟩ rfl (by decide)

/-- Counterexample for C2 as stated: with no index built (`self.indice is
None`), `salvar_indice` writes nothing, so loading from the untouched
(empty) file system leaves the receiver unchanged and its chunk list
differs from the original's. -/
theorem salvar_carregar_roundtrip_counterexample :
    carregar_indice ⟨none, []⟩ "indice_rag.faiss" "chunks_rag.json"
        (salvar_indice ⟨none, ["a"]⟩ "indice_rag.faiss" "chunks_rag.json" (fun _ => none)) =
      .ok ⟨none, []⟩ ∧
    (RagState.mk none []).chunks ≠ (RagState.mk none ["a"]).chunks := by
  constructor
  · rfl
  · decide

/-- C3 (corrected): when either persisted file is missing,
`carregar_indice` completes without raising anything (there is no
`IndexCorruptionError` anywhere in the code) and leaves the receiving
state exactly unchanged. -/
theorem carregar_indice_missing_file_silent (st : RagState)
    (caminho_indice caminho_chunks : String) (fs : FS)
    (h : fs caminho_indice = none ∨ fs caminho_chunks = none) :
    carregar_indice st caminho_indice caminho_chunks fs = .ok st := by
  unfold carregar_indice
  rcases h with h | h
  · rw [h]
    cases fs caminho_chunks <;> rfl
  · rw [h]
    cases fs caminho_indice <;> rfl

/-- Witness for C3: loading from an empty file system. -/
theorem carregar_indice_missing_file_silent_witness :
    carregar_indice ⟨none, ["x"]⟩ "indice_rag.faiss" "chunks_rag.json" (fun _ => none) =
      .ok ⟨none, ["x"]⟩ :=
  carregar_indice_missing_file_silent ⟨none, ["x"]⟩ "indice_rag.faiss" "chunks_rag.json"
    (fun _ => none) (Or.inl rfl)

/-- Counterexample for C3 as stated: with both files missing the load
completes as `.ok` (never an error value), contradicting "fails with
IndexCorruptionError whenever either file is missing". -/
theorem carregar_indice_no_error_on_missing :
    carregar_indice ⟨some ⟨1, [[2]]⟩, ["a"]⟩ "i.faiss" "c.json" (fun _ => none) =
      .ok ⟨some ⟨1, [[2]]⟩, ["a"]⟩ := by
  rfl

/-- C4 (corrected): every file-system operation `salvar_indice` performs
is a direct in-place write to one of the two target paths — there are no
temporary files and no renames. -/
theorem salvar_ops_direct_writes (st : RagState) (caminho_indice caminho_chunks : String)
    (op : FsOp) (hop : op ∈ salvar_ops st caminho_indice caminho_chunks) :
    ∃ c, op = FsOp.write caminho_indice c ∨ op = FsOp.write caminho_chunks c := by
  unfold salvar_ops at hop
  cases hidx : st.indice with
  | none => rw [hidx] at hop; cases hop
  | some idx =>
    rw [hidx] at hop
    rcases List.mem_cons.mp hop with h | h
    · exact ⟨.faissData idx, Or.inl h⟩
    · rcases List.mem_cons.mp h with h2 | h2
      · exact ⟨.jsonData st.chunks, Or.inr h2⟩
      · cases h2

/-- Witness for C4's amended claim: the first operation of a concrete
save is the direct write of the index file. -/
theorem salvar_ops_direct_writes_witness :
    ∃ c, FsOp.write "indice_rag.faiss" (.faissData ⟨1, [[2]]⟩) =
        FsOp.write "indice_rag.faiss" c ∨
      FsOp.write "indice_rag.faiss" (.faissData ⟨1, [[2]]⟩) = FsOp.write "chunks_rag.json" c :=
  salvar_ops_direct_writes ⟨some ⟨1, [[2]]⟩, ["a"]⟩ "indice_rag.faiss" "chunks_rag.json"
    (FsOp.write "indice_rag.faiss" (.faissData ⟨1, [[2]]⟩)) (by decide)

/-- Counterexample for C4 as stated: a concrete save performs a direct
write to a target path and contains no rename, violating the
write-to-temporary-then-rename protocol the spec describes. -/
theorem salvar_indice_not_atomic :
    ¬ specAtomicSaveProtocol
        (salvar_ops ⟨some ⟨1, [[2]]⟩, ["a"]⟩ "indice_rag.faiss" "chunks_rag.json")
        "indice_rag.faiss" "chunks_rag.json" := by
  decide

/-- C5 (corrected): `buscar_contexto` performs no `top_k` validation of
its own and there is no `InvalidQueryError` in the code.  With a
non-positive `top_k` it returns `[]` when no index is built, and when an
index is present the value reaches the FAISS wrapper whose `assert k > 0`
raises `AssertionError`. -/
theorem buscar_contexto_nonpositive_topk (st : RagState) (encode : String → Vec)
    (consulta : String) (top_k : Int) (hk : top_k ≤ 0) :
    (st.indice = none → buscar_contexto st encode consulta top_k = .ok []) ∧
    (∀ idx, st.indice = some idx →
      buscar_contexto st encode consulta top_k = .error .assertionError) := by
  constructor
  · intro h
    unfold buscar_contexto
    rw [h]
  · intro idx h
    obtain ⟨oi, ch⟩ := st
    replace h : oi = some idx := h
    subst h
    rw [buscar_contexto_some _ _ idx _ _ _ rfl]
    by_cases hd : (encode consulta).length = idx.d
    · rw [if_neg (by omega), if_pos hk]
    · rw [if_pos hd]

/-- Witness for C5's amended claim: `top_k = 0` on a state without and a
state with an index. -/
theorem buscar_contexto_nonpositive_topk_witness :
    ((RagState.mk none ["a"]).indice = none →
      buscar_contexto ⟨none, ["a"]⟩ (fun _ => [0]) "q" 0 = .ok []) ∧
    (∀ idx, (RagState.mk none ["a"]).indice = some idx →
      buscar_contexto ⟨none, ["a"]⟩ (fun _ => [0]) "q" 0 = .error .assertionError) :=
  buscar_contexto_nonpositive_topk ⟨none, ["a"]⟩ (fun _ => [0]) "q" 0 (by decide)

/-- Counterexample for C5 as stated: with `top_k = 0` and no index built,
the call completes normally with `[]` — no error of any kind is raised,
in particular no `InvalidQueryError`-like rejection happens. -/
theorem buscar_contexto_topk_zero_no_error :
    buscar_contexto ⟨none, ["a"]⟩ (fun _ => [0]) "q" 0 = .ok [] := by
  rfl

/-- C6 (corrected): when no index is built (`self.indice is None`) the
search returns the empty list for every query and positive `top_k`,
without error. -/
theorem buscar_contexto_no_index_empty (st : RagState) (encode : String → Vec)
    (consulta : String) (top_k : Int) (h : st.indice = none) (_hk : 0 < top_k) :
    buscar_contexto st encode consulta top_k = .ok [] := by
  unfold buscar_contexto
  rw [h]

/-- Witness for C6's amended claim. -/
theorem buscar_contexto_no_index_empty_witness :
    buscar_contexto ⟨none, []⟩ (fun _ => [7]) "pergunta" 3 = .ok [] :=
  buscar_contexto_no_index_empty ⟨none, []⟩ (fun _ => [7]) "pergunta" 3 rfl (by decide)

/-- Counterexample for C6 as stated: searching an index that is present
but holds zero entries raises `IndexError` (FAISS returns only `-1`
padding labels and `chunks[-1]` fails on the empty chunk list) instead of
returning an empty sequence. -/
theorem buscar_contexto_empty_index_raises :
    buscar_contexto ⟨some ⟨1, []⟩, []⟩ (fun _ => [0]) "q" 1 = .error .indexError := by
  decide

/-- C7 (corrected): chunking splits on blank-line separators, not on a
size window.  A nonempty text containing no `"\n\n"` and carrying no
leading or trailing whitespace yields exactly one chunk equal to the full
text. -/
theorem carregar_documentos_single_chunk (conteudo : List Char)
    (hne : conteudo ≠ []) (hsep : hasPar conteudo = false)
    (hstrip : pyStrip conteudo = conteudo) :
    carregar_documentos_chunks conteudo = [conteudo] := by
  unfold carregar_documentos_chunks
  rw [splitPar_no_sep _ _ hsep]
  simp [hstrip, hne]

/-- Witness for C7's amended claim on the text `"abc"`. -/
theorem carregar_documentos_single_chunk_witness :
    carregar_documentos_chunks ("abc".toList) = ["abc".toList] :=
  carregar_documentos_single_chunk ("abc".toList) (by decide) (by decide) (by decide)

/-- Counterexample for C7 as stated: the empty document produces zero
chunks, not at least one. -/
theorem carregar_documentos_empty_no_chunk :
    carregar_documentos_chunks [] = [] ∧ ¬ 1 ≤ (carregar_documentos_chunks []).length := by
  decide

/-- C8 (corrected): the formatter concatenates every surviving chunk in
rank order, numbered and delimited, with no total-length cap: the output
is at least as long as the sum of all chunk lengths, so nothing is
omitted or truncated. -/
theorem obter_contexto_formatado_uncapped (resultados : List String)
    (h : resultados ≠ []) :
    (resultados.map String.length).sum ≤ (obter_contexto_formatado resultados).length := by
  unfold obter_contexto_formatado
  rw [if_neg h, String.length_append]
  have := fmtResultados_length_ge resultados 1
  omega

/-- Witness for C8's amended claim on two concrete results. -/
theorem obter_contexto_formatado_uncapped_witness :
    ((["x", "yz"] : List String).map String.length).sum ≤
      (obter_contexto_formatado ["x", "yz"]).length :=
  obter_contexto_formatado_uncapped ["x", "yz"] (by decide)

/-- Counterexample for C8 as stated: no maximum total character count
bounds the formatted context — for every candidate cap `M` some result
list produces a longer output. -/
theorem obter_contexto_formatado_no_cap :
    ¬ ∃ M : Nat, ∀ resultados : List String,
        (obter_contexto_formatado resultados).length ≤ M := by
  rintro ⟨M, h⟩
  have h2 := h [String.mk (List.replicate (M + 1) 'a')]
  have h3 := fmtResultados_length_ge [String.mk (List.replicate (M + 1) 'a')] 1
  have hlen : (String.mk (List.replicate (M + 1) 'a')).length = M + 1 := by
    show (List.replicate (M + 1) 'a').length = M + 1
    simp
  have hs : ([String.mk (List.replicate (M + 1) 'a')].map String.length).sum = M + 1 := by
    simp [hlen]
  rw [hs] at h3
  unfold obter_contexto_formatado at h2
  rw [if_neg (by simp), String.length_append] at h2
  omega

/-- C9 (confirmed): `SpamAndLengthGuardrail._check` raises
`InputCheckError` exactly when the run input's content is a string of
strictly more than 1000 characters; any non-string content and any string
of at most 1000 characters passes (and the check never modifies its
input — it only reads it). -/
theorem spamLengthCheck_iff (input_content : RunInputContent) :
    (spamLengthCheck input_content).isSome = true ↔
      ∃ s, input_content = RunInputContent.str s ∧ 1000 < s.length := by
  cases input_content with
  | nonStr =>
    simp [spamLengthCheck]
  | str s =>
    unfold spamLengthCheck MAX_INPUT_CHARS
    by_cases h : s ≠ "" ∧ s.length > 1000
    · rw [if_pos h]
      simp only [Option.isSome_some, true_iff]
      exact ⟨s, rfl, h.2⟩
    · rw [if_neg h]
      simp only [Option.isSome_none, Bool.false_eq_true, false_iff, not_exists]
      intro t ⟨ht, hlen⟩
      rw [RunInputContent.str.injEq] at ht
      subst ht
      apply h
      refine ⟨?_, hlen⟩
      intro hempty
      rw [hempty] at hlen
      simp at hlen

/-- C10 (confirmed): `obter_historico` returns at most `limite` messages,
all of the requested session and agent, in ascending timestamp order, and
they are the most recent matching rows — no excluded matching row has a
strictly later timestamp than any returned one. -/
theorem obter_historico_spec (db : List Mensagem) (session_id agente_nome : String)
    (limite : Nat) (_hpos : 0 < limite) :
    (obter_historico db session_id agente_nome limite).length ≤ limite ∧
    (∀ m ∈ obter_historico db session_id agente_nome limite,
        m.session_id = session_id ∧ m.agente_nome = agente_nome) ∧
    List.Sorted (fun a b => a.timestamp ≤ b.timestamp)
      (obter_historico db session_id agente_nome limite) ∧
    (∀ m ∈ obter_historico db session_id agente_nome limite,
      ∀ m2 ∈ db.filter (matchesQuery session_id agente_nome),
        m2 ∉ obter_historico db session_id agente_nome limite →
        m2.timestamp ≤ m.timestamp) := by
  have hres : obter_historico db session_id agente_nome limite =
      ((List.insertionSort (fun a b => b.timestamp ≤ a.timestamp)
        (db.filter (matchesQuery session_id agente_nome))).take limite).reverse := rfl
  have hsorted : (List.insertionSort (fun a b => b.timestamp ≤ a.timestamp)
      (db.filter (matchesQuery session_id agente_nome))).Pairwise
      (fun a b => b.timestamp ≤ a.timestamp) :=
    List.sorted_insertionSort _ _
  have hperm : (List.insertionSort (fun a b => b.timestamp ≤ a.timestamp)
      (db.filter (matchesQuery session_id agente_nome))).Perm
      (db.filter (matchesQuery session_id agente_nome)) :=
    List.perm_insertionSort _ _
  have hmem_take : ∀ m, m ∈ obter_historico db session_id agente_nome limite ↔
      m ∈ (List.insertionSort (fun a b => b.timestamp ≤ a.timestamp)
        (db.filter (matchesQuery session_id agente_nome))).take limite := by
    intro m
    rw [hres, List.mem_reverse]
  refine ⟨?_, ?_, ?_, ?_⟩
  · rw [hres]
    simp only [List.length_reverse, List.length_take]
    omega
  · intro m hm
    have h1 : m ∈ db.filter (matchesQuery session_id agente_nome) :=
      hperm.subset ((List.take_sublist _ _).subset ((hmem_take m).mp hm))
    have h2 := (List.mem_filter.mp h1).2
    unfold matchesQuery at h2
    simp only [Bool.and_eq_true, decide_eq_true_eq] at h2
    exact h2
  · show List.Pairwise (fun a b => a.timestamp ≤ b.timestamp)
      (obter_historico db session_id agente_nome limite)
    rw [hres]
    exact List.pairwise_reverse.mpr
      (List.Pairwise.sublist (List.take_sublist _ _) hsorted)
  · intro m hm m2 hm2 hnot
    have hmtake := (hmem_take m).mp hm
    have hm2sorted : m2 ∈ List.insertionSort (fun a b => b.timestamp ≤ a.timestamp)
        (db.filter (matchesQuery session_id agente_nome)) :=
      (hperm.symm.subset) hm2
    have hm2not : m2 ∉ (List.insertionSort (fun a b => b.timestamp ≤ a.timestamp)
        (db.filter (matchesQuery session_id agente_nome))).take limite := by
      intro hcontra
      exact hnot ((hmem_take m2).mpr hcontra)
    have hsplit := List.take_append_drop limite
      (List.insertionSort (fun a b => b.timestamp ≤ a.timestamp)
        (db.filter (matchesQuery session_id agente_nome)))
    rw [← hsplit] at hsorted hm2sorted
    have hm2drop : m2 ∈ (List.insertionSort (fun a b => b.timestamp ≤ a.timestamp)
        (db.filter (matchesQuery session_id agente_nome))).drop limite := by
      rcases List.mem_append.mp hm2sorted with h | h
      · exact absurd h hm2not
      · exact h
    have hcross := (List.pairwise_append.mp hsorted).2.2
    exact hcross m hmtake m2 hm2drop

/-- Witness for C10 on a concrete four-row table with `limite = 2`. -/
theorem obter_historico_spec_witness :
    (obter_historico
      [⟨"s", "a", "user", "m1", 1⟩, ⟨"s", "b", "user", "x", 2⟩,
       ⟨"s", "a", "assistant", "m2", 3⟩, ⟨"s", "a", "user", "m3", 4⟩] "s" "a" 2).length ≤ 2 ∧
    (∀ m ∈ obter_historico
      [⟨"s", "a", "user", "m1", 1⟩, ⟨"s", "b", "user", "x", 2⟩,
       ⟨"s", "a", "assistant", "m2", 3⟩, ⟨"s", "a", "user", "m3", 4⟩] "s" "a" 2,
        m.session_id = "s" ∧ m.agente_nome = "a") ∧
    List.Sorted (fun a b => a.timestamp ≤ b.timestamp)
      (obter_historico
        [⟨"s", "a", "user", "m1", 1⟩, ⟨"s", "b", "user", "x", 2⟩,
         ⟨"s", "a", "assistant", "m2", 3⟩, ⟨"s", "a", "user", "m3", 4⟩] "s" "a" 2) ∧
    (∀ m ∈ obter_historico
      [⟨"s", "a", "user", "m1", 1⟩, ⟨"s", "b", "user", "x", 2⟩,
       ⟨"s", "a", "assistant", "m2", 3⟩, ⟨"s", "a", "user", "m3", 4⟩] "s" "a" 2,
      ∀ m2 ∈ List.filter (matchesQuery "s" "a")
        [⟨"s", "a", "user", "m1", 1⟩, ⟨"s", "b", "user", "x", 2⟩,
         ⟨"s", "a", "assistant", "m2", 3⟩, ⟨"s", "a", "user", "m3", 4⟩],
        m2 ∉ obter_historico
          [⟨"s", "a", "user", "m1", 1⟩, ⟨"s", "b", "user", "x", 2⟩,
           ⟨"s", "a", "assistant", "m2", 3⟩, ⟨"s", "a", "user", "m3", 4⟩] "s" "a" 2 →
        m2.timestamp ≤ m.timestamp) :=
  obter_historico_spec
    [⟨"s", "a", "user", "m1", 1⟩, ⟨"s", "b", "user", "x", 2⟩,
     ⟨"s", "a", "assistant", "m2", 3⟩, ⟨"s", "a", "user", "m3", 4⟩] "s" "a" 2 (by decide)

end ReclamAI
